import Mathlib

/-!
Verification of the modal lifecycle manager (registry + instance store +
per-handle stacks + render reconciliation), shallowly embedded from the
TypeScript source.

Modelling choices:
* React component definitions are identity-compared (reference equality);
  we model a component definition by its identity, a `Nat`.
* `nanoid()` is a fresh globally-unique string generator; we model it as a
  counter-based fresh supply (`nextNano`), so every generated id is a `Nat`
  strictly larger than every id handed out before.
* A JavaScript `Map` is an insertion-ordered mapping; we model its contents
  as an association list with JS semantics: `set` on an existing key
  updates in place (keeping the position), otherwise appends; `delete`
  removes the entry; iteration follows list order.
* `new Map(old)` allocates a fresh Map object. To make object identity and
  in-place-mutation claims meaningful, Map objects for the store live in an
  explicit heap: an address-indexed list of map contents plus an allocation
  counter. Mutations allocate a fresh address and swap the store pointer,
  exactly mirroring `const newModals = new Map(state.modals); ...;
  return { ...state, modals: newModals }`.
* Zustand `set` replaces the state object (`{ ...state, modals }` is always
  a fresh object, never `Object.is`-equal to the previous state), so every
  `set` call notifies all subscribers; we count notifications with
  `notifyCount`.
-/

namespace ModalManager

/-- Props passed to a modal component (`Record<string, unknown>`); values
are modelled opaquely as strings. -/
abbrev Props := List (String × String)

/-- `ModalState` from the source: `{ id, componentId, props? }`. -/
structure ModalState where
  id : Nat
  componentId : Nat
  props : Option Props
deriving DecidableEq, Repr

/-- JS `Map.get`: first (and, for well-formed maps, only) binding of the key. -/
def mapGet {α : Type} (m : List (Nat × α)) (k : Nat) : Option α :=
  (m.find? (fun p => p.1 = k)).map (fun p => p.2)

/-- JS `Map.set`: update in place if the key is present (keeping its
insertion position), otherwise append at the end. -/
def mapSet {α : Type} (m : List (Nat × α)) (k : Nat) (v : α) : List (Nat × α) :=
  if (m.find? (fun p => p.1 = k)).isSome then
    m.map (fun p => if p.1 = k then (k, v) else p)
  else
    m ++ [(k, v)]

/-- JS `Map.delete`: remove the binding of the key, if any. -/
def mapDelete {α : Type} (m : List (Nat × α)) (k : Nat) : List (Nat × α) :=
  m.filter (fun p => p.1 ≠ k)

/-- Heap of Map objects backing `state.modals`: each `new Map(...)` takes a
fresh address `next`. -/
structure Heap where
  next : Nat
  cells : List (Nat × List (Nat × ModalState))
deriving Repr

/-- Dereference a Map object. -/
def Heap.get (h : Heap) (a : Nat) : Option (List (Nat × ModalState)) :=
  mapGet h.cells a

/-- Allocate a fresh Map object holding `v`; returns its address. -/
def Heap.alloc (h : Heap) (v : List (Nat × ModalState)) : Nat × Heap :=
  (h.next, ⟨h.next + 1, (h.next, v) :: h.cells⟩)

/-- Heap well-formedness: every allocated address is below the allocation
counter, so fresh addresses never collide with live objects. -/
def Heap.WF (h : Heap) : Prop :=
  ∀ p ∈ h.cells, p.1 < h.next

instance (h : Heap) : Decidable h.WF := List.decidableBAll _ h.cells

/-- The whole mutable world of the module: the nanoid supply, the two
registry maps (`componentRegistry` forward, `componentIdMap` reverse), the
heap of Map objects, the current `state.modals` reference, and the count of
subscriber notifications fired by the zustand store. -/
structure GlobalState where
  nextNano : Nat
  regForward : List (Nat × Nat)
  regReverse : List (Nat × Nat)
  heap : Heap
  modalsAddr : Nat
  notifyCount : Nat
deriving Repr

/-- `nanoid()`: hand out the next fresh id. -/
def nanoid (s : GlobalState) : Nat × GlobalState :=
  (s.nextNano, { s with nextNano := s.nextNano + 1 })

/-- Contents of the current `state.modals` snapshot. -/
def GlobalState.modals (s : GlobalState) : List (Nat × ModalState) :=
  (s.heap.get s.modalsAddr).getD []

/-- `registerComponent`: look the definition up in the forward map; if
absent, generate a fresh id and insert into both maps; return the id. -/
def registerComponent (c : Nat) (s : GlobalState) : Nat × GlobalState :=
  match mapGet s.regForward c with
  | some cid => (cid, s)
  | none =>
    let p := nanoid s
    (p.1, { p.2 with
              regForward := mapSet p.2.regForward c p.1,
              regReverse := mapSet p.2.regReverse p.1 c })

/-- `openModal(id, component, props?)`: register the component, then build
`newModals = new Map(state.modals)` with the entry set, and swap it in
(notifying subscribers). -/
def openModal (id : Nat) (c : Nat) (props : Option Props) (s : GlobalState) :
    GlobalState :=
  let r := registerComponent c s
  let s1 := r.2
  let p := s1.heap.alloc (mapSet s1.modals id ⟨id, r.1, props⟩)
  { s1 with heap := p.2, modalsAddr := p.1, notifyCount := s1.notifyCount + 1 }

/-- `closeModal(id)`: build `newModals = new Map(state.modals)` with the
entry deleted, and swap it in (notifying subscribers) — even when `id` was
absent. -/
def closeModal (id : Nat) (s : GlobalState) : GlobalState :=
  let p := s.heap.alloc (mapDelete s.modals id)
  { s with heap := p.2, modalsAddr := p.1, notifyCount := s.notifyCount + 1 }

/-- `open` of a handle from `createModal(component)`: generate a fresh id,
push it on the private stack (JS `ids.push` appends at the end), call
`openModal`, and return the id. -/
def handleOpen (component : Nat) (props : Option Props) (ids : List Nat)
    (s : GlobalState) : Nat × List Nat × GlobalState :=
  let p := nanoid s
  (p.1, ids ++ [p.1], openModal p.1 component props p.2)

/-- `close` of a handle: `ids.pop()` takes the last element; when the stack
is empty, `pop` yields `undefined` and nothing happens. -/
def handleClose (ids : List Nat) (s : GlobalState) : List Nat × GlobalState :=
  match ids.getLast? with
  | none => (ids, s)
  | some id => (ids.dropLast, closeModal id s)

/-- What the renderer produces for one instance that resolved: the React
key, the resolved component, the injected `id` prop, the id targeted by the
injected `close` callback, and the user props spread after them. -/
structure Rendered where
  key : Nat
  component : Nat
  id : Nat
  closeTarget : Nat
  props : Props
deriving DecidableEq, Repr

/-- One step of `ModalRenderer`: resolve `componentIdMap.get(componentId)`;
on failure render `null`; on success render the component keyed by the
instance id with `id`, `close: () => closeModal(modal.id)` and the user
props. -/
def renderModal (s : GlobalState) (m : ModalState) : Option Rendered :=
  match mapGet s.regReverse m.componentId with
  | none => none
  | some c => some ⟨m.id, c, m.id, m.id, m.props.getD []⟩

/-- `ModalRenderer`: map over the snapshot in insertion order. -/
def renderModals (s : GlobalState) : List (Option Rendered) :=
  s.modals.map (fun p => renderModal s p.2)

/-- The `console.warn` diagnostics emitted during one render pass. -/
def renderWarnings (s : GlobalState) : List String :=
  s.modals.filterMap (fun p =>
    match mapGet s.regReverse p.2.componentId with
    | none => some ("Modal component with ID " ++ toString p.2.componentId
        ++ " not found")
    | some _ => none)

/-- `ModalProvider` unmount effect, which calls `setState` with a fresh
empty Map as the store contents. -/
def providerTeardown (s : GlobalState) : GlobalState :=
  let p := s.heap.alloc []
  { s with heap := p.2, modalsAddr := p.1, notifyCount := s.notifyCount + 1 }

/-- Store well-formedness: the heap is well-formed and every instance id in
the store was produced by the nanoid supply (hence is below the counter). -/
def GlobalState.WF (s : GlobalState) : Prop :=
  s.heap.WF ∧ ∀ p ∈ s.modals, p.1 < s.nextNano

instance (s : GlobalState) : Decidable s.WF := by
  unfold GlobalState.WF
  exact instDecidableAnd

/-- Registry well-formedness: the two maps invert each other (every id in
the reverse map exists in the forward map for the same definition and vice
versa), and every registered component id came from the nanoid supply. -/
def RegWF (s : GlobalState) : Prop :=
  (∀ p ∈ s.regForward, mapGet s.regReverse p.2 = some p.1) ∧
    (∀ p ∈ s.regReverse, mapGet s.regForward p.2 = some p.1) ∧
    ∀ p ∈ s.regForward, p.2 < s.nextNano

instance (s : GlobalState) : Decidable (RegWF s) := by
  unfold RegWF
  infer_instance

/-- A convenient initial state: empty registry, one allocated empty Map as
the store contents. -/
def initialState : GlobalState :=
  ⟨0, [], [], ⟨1, [(0, [])]⟩, 0, 0⟩

/-- A concrete state for exercising the renderer: component definition `5`
is registered under id `1`; the store holds instance `10` referencing the
never-registered component id `99` and instance `11` referencing id `1`. -/
def renderDemo : GlobalState :=
  ⟨12, [(5, 1)], [(1, 5)],
    ⟨1, [(0, [(10, ⟨10, 99, none⟩), (11, ⟨11, 1, some [("t", "x")]⟩)])]⟩, 0, 0⟩

/-! ### Basic lemmas about the JS Map model -/

theorem mapGet_nil {α : Type} (k : Nat) : mapGet ([] : List (Nat × α)) k = none := rfl

theorem mapGet_cons {α : Type} (a : Nat) (b : α) (m : List (Nat × α)) (k : Nat) :
    mapGet ((a, b) :: m) k = if a = k then some b else mapGet m k := by
  by_cases h : a = k
  · simp [mapGet, List.find?_cons, h]
  · simp [mapGet, List.find?_cons, h]

theorem mapGet_eq_none_iff {α : Type} (m : List (Nat × α)) (k : Nat) :
    mapGet m k = none ↔ ∀ p ∈ m, p.1 ≠ k := by
  simp [mapGet, List.find?_eq_none]

theorem mapGet_append_right {α : Type} (m m' : List (Nat × α)) (k : Nat)
    (h : mapGet m k = none) : mapGet (m ++ m') k = mapGet m' k := by
  induction m with
  | nil => simp
  | cons p t ih =>
    obtain ⟨a, b⟩ := p
    rw [mapGet_cons] at h
    by_cases hak : a = k
    · simp [hak] at h
    · rw [List.cons_append, mapGet_cons, if_neg hak]
      exact ih (by simpa [hak] using h)

theorem mapGet_append_left {α : Type} (m m' : List (Nat × α)) (k : Nat) (v : α)
    (h : mapGet m k = some v) : mapGet (m ++ m') k = some v := by
  induction m with
  | nil => simp [mapGet_nil] at h
  | cons p t ih =>
    obtain ⟨a, b⟩ := p
    rw [mapGet_cons] at h
    rw [List.cons_append, mapGet_cons]
    by_cases hak : a = k
    · simpa [hak] using h
    · rw [if_neg hak]
      exact ih (by simpa [hak] using h)

theorem mapSet_of_absent {α : Type} (m : List (Nat × α)) (k : Nat) (v : α)
    (h : mapGet m k = none) : mapSet m k v = m ++ [(k, v)] := by
  unfold mapSet
  have : m.find? (fun p => p.1 = k) = none := by
    simpa [mapGet, Option.map_eq_none] using h
  simp [this]

theorem mapDelete_of_absent {α : Type} (m : List (Nat × α)) (k : Nat)
    (h : mapGet m k = none) : mapDelete m k = m := by
  rw [mapGet_eq_none_iff] at h
  unfold mapDelete
  rw [List.filter_eq_self]
  intro p hp
  simpa using h p hp

theorem mapGet_delete_self {α : Type} (m : List (Nat × α)) (k : Nat) :
    mapGet (mapDelete m k) k = none := by
  rw [mapGet_eq_none_iff]
  intro p hp
  have := (List.mem_filter.mp hp).2
  simpa using this

theorem mapGet_delete_ne {α : Type} (m : List (Nat × α)) (k j : Nat)
    (h : j ≠ k) : mapGet (mapDelete m k) j = mapGet m j := by
  induction m with
  | nil => rfl
  | cons p t ih =>
    obtain ⟨a, b⟩ := p
    by_cases hak : a = k
    · have hstep : mapDelete ((a, b) :: t) k = mapDelete t k := by
        simp [mapDelete, hak]
      rw [hstep, ih, mapGet_cons, if_neg (by rw [hak]; exact fun e => h e.symm)]
    · have hstep : mapDelete ((a, b) :: t) k = (a, b) :: mapDelete t k := by
        simp [mapDelete, hak]
      rw [hstep, mapGet_cons, mapGet_cons]
      by_cases haj : a = j
      · simp [haj]
      · simp [haj, ih]

theorem mem_mapDelete {α : Type} (m : List (Nat × α)) (k : Nat) (p : Nat × α)
    (hp : p ∈ m) (hne : p.1 ≠ k) : p ∈ mapDelete m k := by
  exact List.mem_filter.mpr ⟨hp, by simpa using hne⟩

theorem mapDelete_append_singleton {α : Type} (m : List (Nat × α)) (k : Nat)
    (v : α) (h : mapGet m k = none) :
    mapDelete (m ++ [(k, v)]) k = m := by
  unfold mapDelete
  rw [List.filter_append]
  have h1 : List.filter (fun p => p.1 ≠ k) m = m := mapDelete_of_absent m k h
  have h2 : List.filter (fun p => p.1 ≠ k) [(k, v)] = [] := by simp
  rw [h1, h2, List.append_nil]

theorem mapGet_some_mem {α : Type} (m : List (Nat × α)) (k : Nat) (v : α)
    (h : mapGet m k = some v) : (k, v) ∈ m := by
  unfold mapGet at h
  obtain ⟨p, hfind, hv⟩ := Option.map_eq_some.mp h
  have hmem := List.mem_of_find?_eq_some hfind
  have hkey := List.find?_some hfind
  obtain ⟨a, b⟩ := p
  simp at hkey hv
  rw [← hkey, ← hv]
  exact hmem

/-! ### Heap lemmas -/

theorem Heap.get_alloc_self (h : Heap) (v : List (Nat × ModalState)) :
    (h.alloc v).2.get (h.alloc v).1 = some v := by
  simp [Heap.alloc, Heap.get, mapGet_cons]

theorem Heap.get_alloc_old (h : Heap) (v w : List (Nat × ModalState)) (a : Nat)
    (hwf : h.WF) (ha : h.get a = some w) : (h.alloc v).2.get a = some w := by
  have hmem : (a, w) ∈ h.cells := mapGet_some_mem h.cells a w ha
  have hlt : a < h.next := hwf (a, w) hmem
  have hne : h.next ≠ a := fun e => absurd e.symm (Nat.ne_of_lt hlt)
  simp [Heap.alloc, Heap.get, mapGet_cons, hne]
  exact ha

theorem Heap.WF_alloc (h : Heap) (v : List (Nat × ModalState)) (hwf : h.WF) :
    (h.alloc v).2.WF := by
  intro p hp
  rcases List.mem_cons.mp hp with he | ht
  · rw [he]
    exact Nat.lt_succ_self _
  · exact Nat.lt_succ_of_lt (hwf p ht)

theorem Heap.get_some_lt (h : Heap) (a : Nat) (w : List (Nat × ModalState))
    (hwf : h.WF) (ha : h.get a = some w) : a < h.next :=
  hwf (a, w) (mapGet_some_mem h.cells a w ha)

/-! ### State-level lemmas -/

theorem registerComponent_heap (c : Nat) (s : GlobalState) :
    (registerComponent c s).2.heap = s.heap := by
  unfold registerComponent
  cases mapGet s.regForward c <;> rfl

theorem registerComponent_modalsAddr (c : Nat) (s : GlobalState) :
    (registerComponent c s).2.modalsAddr = s.modalsAddr := by
  unfold registerComponent
  cases mapGet s.regForward c <;> rfl

theorem registerComponent_modals (c : Nat) (s : GlobalState) :
    (registerComponent c s).2.modals = s.modals := by
  unfold GlobalState.modals
  rw [registerComponent_heap, registerComponent_modalsAddr]

theorem registerComponent_notifyCount (c : Nat) (s : GlobalState) :
    (registerComponent c s).2.notifyCount = s.notifyCount := by
  unfold registerComponent
  cases mapGet s.regForward c <;> rfl

theorem registerComponent_nextNano_ge (c : Nat) (s : GlobalState) :
    s.nextNano ≤ (registerComponent c s).2.nextNano := by
  unfold registerComponent
  cases mapGet s.regForward c with
  | none => exact Nat.le_succ _
  | some cid => exact Nat.le_refl _

theorem modals_openModal (id c : Nat) (props : Option Props) (s : GlobalState) :
    (openModal id c props s).modals =
      mapSet s.modals id ⟨id, (registerComponent c s).1, props⟩ := by
  unfold openModal GlobalState.modals
  rw [Heap.get_alloc_self, Option.getD_some, registerComponent_heap,
    registerComponent_modalsAddr]

theorem modals_closeModal (id : Nat) (s : GlobalState) :
    (closeModal id s).modals = mapDelete s.modals id := by
  unfold closeModal GlobalState.modals
  rw [Heap.get_alloc_self, Option.getD_some]

theorem notifyCount_closeModal (id : Nat) (s : GlobalState) :
    (closeModal id s).notifyCount = s.notifyCount + 1 := rfl

theorem modalsAddr_closeModal (id : Nat) (s : GlobalState) :
    (closeModal id s).modalsAddr = s.heap.next := rfl

theorem modals_providerTeardown (s : GlobalState) :
    (providerTeardown s).modals = [] := by
  unfold providerTeardown GlobalState.modals
  rw [Heap.get_alloc_self, Option.getD_some]

theorem nextNano_closeModal (id : Nat) (s : GlobalState) :
    (closeModal id s).nextNano = s.nextNano := rfl

theorem WF_closeModal (id : Nat) (s : GlobalState) (h : s.WF) :
    (closeModal id s).WF := by
  constructor
  · exact Heap.WF_alloc _ _ h.1
  · intro p hp
    rw [modals_closeModal] at hp
    rw [nextNano_closeModal]
    exact h.2 p (List.mem_filter.mp hp).1

/-- The id returned by a handle open is fresh: it is not a key of the
store beforehand. -/
theorem handleOpen_id_fresh (c : Nat) (props : Option Props) (ids : List Nat)
    (s : GlobalState) (h : s.WF) :
    mapGet s.modals (handleOpen c props ids s).1 = none := by
  rw [mapGet_eq_none_iff]
  intro p hp
  have := h.2 p hp
  unfold handleOpen nanoid
  simpa using Nat.ne_of_lt this

theorem handleOpen_modals (c : Nat) (props : Option Props) (ids : List Nat)
    (s : GlobalState) (h : s.WF) :
    (handleOpen c props ids s).2.2.modals =
      s.modals ++ [((handleOpen c props ids s).1,
        ⟨(handleOpen c props ids s).1,
         (registerComponent c { s with nextNano := s.nextNano + 1 }).1, props⟩)] := by
  have hfresh := handleOpen_id_fresh c props ids s h
  unfold handleOpen nanoid at hfresh ⊢
  simp only
  rw [modals_openModal]
  have hmod : ({ s with nextNano := s.nextNano + 1 } : GlobalState).modals = s.modals := rfl
  rw [hmod]
  exact mapSet_of_absent _ _ _ hfresh

theorem handleOpen_stack (c : Nat) (props : Option Props) (ids : List Nat)
    (s : GlobalState) :
    (handleOpen c props ids s).2.1 = ids ++ [(handleOpen c props ids s).1] := rfl

theorem handleOpen_nextNano_gt (c : Nat) (props : Option Props) (ids : List Nat)
    (s : GlobalState) :
    (handleOpen c props ids s).1 < (handleOpen c props ids s).2.2.nextNano := by
  unfold handleOpen nanoid openModal
  simp only
  have h1 := registerComponent_nextNano_ge c
    ({ s with nextNano := s.nextNano + 1 } : GlobalState)
  exact Nat.lt_of_lt_of_le (Nat.lt_succ_self _) h1

theorem handleOpen_WF (c : Nat) (props : Option Props) (ids : List Nat)
    (s : GlobalState) (h : s.WF) : (handleOpen c props ids s).2.2.WF := by
  constructor
  · show (handleOpen c props ids s).2.2.heap.WF
    unfold handleOpen nanoid openModal
    simp only
    exact Heap.WF_alloc _ _ (by rw [registerComponent_heap]; exact h.1)
  · intro p hp
    rw [handleOpen_modals c props ids s h] at hp
    rcases List.mem_append.mp hp with hold | hnew
    · have h1 := h.2 p hold
      have h2 : s.nextNano ≤ (handleOpen c props ids s).2.2.nextNano := by
        unfold handleOpen nanoid openModal
        simp only
        have := registerComponent_nextNano_ge c
          ({ s with nextNano := s.nextNano + 1 } : GlobalState)
        exact Nat.le_trans (Nat.le_succ _) this
      exact Nat.lt_of_lt_of_le h1 h2
    · have : p.1 = (handleOpen c props ids s).1 := by
        rcases List.mem_singleton.mp hnew with rfl
        rfl
      rw [this]
      exact handleOpen_nextNano_gt c props ids s

theorem handleClose_concat (ids : List Nat) (id : Nat) (s : GlobalState) :
    handleClose (ids ++ [id]) s = (ids, closeModal id s) := by
  unfold handleClose
  rw [List.getLast?_concat]
  simp

theorem handleClose_nil (s : GlobalState) : handleClose [] s = ([], s) := rfl

theorem registerComponent_of_found (c cid : Nat) (s : GlobalState)
    (h : mapGet s.regForward c = some cid) : registerComponent c s = (cid, s) := by
  unfold registerComponent
  rw [h]

theorem registerComponent_of_absent (c : Nat) (s : GlobalState)
    (h : mapGet s.regForward c = none) :
    registerComponent c s = (s.nextNano,
      { s with nextNano := s.nextNano + 1,
               regForward := mapSet s.regForward c s.nextNano,
               regReverse := mapSet s.regReverse s.nextNano c }) := by
  unfold registerComponent
  rw [h]
  rfl

/-! ### Claim theorems -/

/-- C1. Open/close inverse: for any handle (stack `ids`) and any
well-formed store state, `h.open(props)` appends exactly one new entry
(size grows by one, the new entry carries the returned id and the given
props), and a subsequent `h.close()` pops exactly that id, returning the
store to its prior contents — every other entry, props included, is
unchanged. -/
theorem open_close_inverse (c : Nat) (props : Option Props) (ids : List Nat)
    (s : GlobalState) (hWF : s.WF) :
    (handleOpen c props ids s).2.2.modals.length = s.modals.length + 1
    ∧ (∃ m : ModalState, m.id = (handleOpen c props ids s).1 ∧ m.props = props ∧
        (handleOpen c props ids s).2.2.modals
          = s.modals ++ [((handleOpen c props ids s).1, m)])
    ∧ (handleClose (handleOpen c props ids s).2.1 (handleOpen c props ids s).2.2).1
        = ids
    ∧ (handleClose (handleOpen c props ids s).2.1 (handleOpen c props ids s).2.2).2.modals
        = s.modals := by
  have hm := handleOpen_modals c props ids s hWF
  have hfresh := handleOpen_id_fresh c props ids s hWF
  have hstack : (handleOpen c props ids s).2.1
      = ids ++ [(handleOpen c props ids s).1] := rfl
  refine ⟨?_, ?_, ?_, ?_⟩
  · rw [hm]
    simp
  · exact ⟨⟨(handleOpen c props ids s).1, _, props⟩, rfl, rfl, hm⟩
  · rw [hstack, handleClose_concat]
  · rw [hstack, handleClose_concat]
    show (closeModal (handleOpen c props ids s).1 (handleOpen c props ids s).2.2).modals
      = s.modals
    rw [modals_closeModal, hm]
    exact mapDelete_append_singleton _ _ _ hfresh

theorem open_close_inverse_witness :
    initialState.WF ∧
    (handleClose (handleOpen 7 (some [("title", "A")]) [] initialState).2.1
        (handleOpen 7 (some [("title", "A")]) [] initialState).2.2).2.modals
      = initialState.modals :=
  ⟨by decide,
   (open_close_inverse 7 (some [("title", "A")]) [] initialState (by decide)).2.2.2⟩

/-- C4. Empty-close safety: `close()` on a handle whose private stack is
empty returns the state entirely unchanged (the source does not even call
`closeModal`), and `closeModal(id)` for an id not present in the store
leaves the store contents unchanged. -/
theorem empty_close_noop (s : GlobalState) (id : Nat)
    (hid : mapGet s.modals id = none) :
    handleClose [] s = ([], s) ∧ (closeModal id s).modals = s.modals := by
  refine ⟨handleClose_nil s, ?_⟩
  rw [modals_closeModal]
  exact mapDelete_of_absent _ _ hid

theorem empty_close_noop_witness :
    mapGet initialState.modals 5 = none ∧
    handleClose [] initialState = ([], initialState) ∧
    (closeModal 5 initialState).modals = initialState.modals :=
  ⟨by decide, empty_close_noop initialState 5 (by decide)⟩

/-- C8. Provider teardown clears the entire instance store: for every
store state — however many handles opened however many instances — the
teardown effect installs an empty mapping, leaving zero instances. -/
theorem teardown_clears_all (s : GlobalState) :
    (providerTeardown s).modals = [] ∧ (providerTeardown s).modals.length = 0 := by
  have h := modals_providerTeardown s
  exact ⟨h, by rw [h]; rfl⟩

/-- C9. Stale stacks: a handle stack is not synchronized with id-addressed
removals. If the top id of the stack is no longer in the store (it was
removed directly by id, e.g. by the injected self-close), the next
`close()` still pops that stale id, and the resulting `closeModal` call
leaves the store contents unchanged — every entry, in particular any
earlier instance this handle opened, stays present until a further
`close()`. -/
theorem stale_stack_close (rest : List Nat) (id : Nat) (s : GlobalState)
    (hid : mapGet s.modals id = none) :
    (handleClose (rest ++ [id]) s).1 = rest
    ∧ (handleClose (rest ++ [id]) s).2.modals = s.modals
    ∧ ∀ (j : Nat) (m : ModalState), (j, m) ∈ s.modals →
        (j, m) ∈ (handleClose (rest ++ [id]) s).2.modals := by
  have h2 : (handleClose (rest ++ [id]) s).2.modals = s.modals := by
    rw [handleClose_concat]
    show (closeModal id s).modals = s.modals
    rw [modals_closeModal]
    exact mapDelete_of_absent _ _ hid
  refine ⟨by rw [handleClose_concat], h2, ?_⟩
  intro j m hm
  rw [h2]
  exact hm

theorem stale_stack_close_witness :
    mapGet initialState.modals 3 = none ∧
    (handleClose ([4] ++ [3]) initialState).1 = [4] ∧
    (handleClose ([4] ++ [3]) initialState).2.modals = initialState.modals :=
  ⟨by decide, (stale_stack_close [4] 3 initialState (by decide)).1,
    (stale_stack_close [4] 3 initialState (by decide)).2.1⟩

/-- C2. Stack ownership isolation: with any two handles (stacks `st1`,
`st2`, definitions `c1`, `c2`, possibly equal), after
`h1.open(); h2.open(); h1.close()` the id opened by `h1` is gone, the
instance opened by `h2` is still present with the same contents, the final
store is exactly the two-open store minus the id of `h1`; and in general a
handle close never removes an entry whose id is not on its own stack. -/
theorem stack_ownership_isolation (c1 c2 : Nat) (p1 p2 : Option Props)
    (st1 st2 : List Nat) (s : GlobalState) (hWF : s.WF) :
    mapGet (handleClose (handleOpen c1 p1 st1 s).2.1
        (handleOpen c2 p2 st2 (handleOpen c1 p1 st1 s).2.2).2.2).2.modals
        (handleOpen c1 p1 st1 s).1 = none
    ∧ (∃ m2 : ModalState,
        mapGet (handleOpen c2 p2 st2 (handleOpen c1 p1 st1 s).2.2).2.2.modals
          (handleOpen c2 p2 st2 (handleOpen c1 p1 st1 s).2.2).1 = some m2
        ∧ mapGet (handleClose (handleOpen c1 p1 st1 s).2.1
            (handleOpen c2 p2 st2 (handleOpen c1 p1 st1 s).2.2).2.2).2.modals
            (handleOpen c2 p2 st2 (handleOpen c1 p1 st1 s).2.2).1 = some m2)
    ∧ (handleClose (handleOpen c1 p1 st1 s).2.1
        (handleOpen c2 p2 st2 (handleOpen c1 p1 st1 s).2.2).2.2).2.modals
        = mapDelete (handleOpen c2 p2 st2 (handleOpen c1 p1 st1 s).2.2).2.2.modals
            (handleOpen c1 p1 st1 s).1
    ∧ ∀ (ids : List Nat) (t : GlobalState) (i : Nat) (m : ModalState),
        (i, m) ∈ t.modals → i ∉ ids → (i, m) ∈ (handleClose ids t).2.modals := by
  have hWF1 : (handleOpen c1 p1 st1 s).2.2.WF := handleOpen_WF c1 p1 st1 s hWF
  have hm2 := handleOpen_modals c2 p2 st2 (handleOpen c1 p1 st1 s).2.2 hWF1
  have hfresh2 := handleOpen_id_fresh c2 p2 st2 (handleOpen c1 p1 st1 s).2.2 hWF1
  have hlt1 : (handleOpen c1 p1 st1 s).1 < (handleOpen c1 p1 st1 s).2.2.nextNano :=
    handleOpen_nextNano_gt c1 p1 st1 s
  have hB : (handleOpen c2 p2 st2 (handleOpen c1 p1 st1 s).2.2).1
      = (handleOpen c1 p1 st1 s).2.2.nextNano := rfl
  have hne : (handleOpen c1 p1 st1 s).1
      ≠ (handleOpen c2 p2 st2 (handleOpen c1 p1 st1 s).2.2).1 := by
    rw [hB]
    exact Nat.ne_of_lt hlt1
  have hstack : (handleOpen c1 p1 st1 s).2.1
      = st1 ++ [(handleOpen c1 p1 st1 s).1] := rfl
  have hdel : (handleClose (handleOpen c1 p1 st1 s).2.1
      (handleOpen c2 p2 st2 (handleOpen c1 p1 st1 s).2.2).2.2).2.modals
      = mapDelete (handleOpen c2 p2 st2 (handleOpen c1 p1 st1 s).2.2).2.2.modals
          (handleOpen c1 p1 st1 s).1 := by
    rw [hstack, handleClose_concat]
    exact modals_closeModal _ _
  refine ⟨?_, ?_, hdel, ?_⟩
  · rw [hdel]
    exact mapGet_delete_self _ _
  · obtain ⟨cid2, hm2'⟩ : ∃ cid2,
        (handleOpen c2 p2 st2 (handleOpen c1 p1 st1 s).2.2).2.2.modals
          = (handleOpen c1 p1 st1 s).2.2.modals
            ++ [((handleOpen c2 p2 st2 (handleOpen c1 p1 st1 s).2.2).1,
                ⟨(handleOpen c2 p2 st2 (handleOpen c1 p1 st1 s).2.2).1, cid2, p2⟩)] :=
      ⟨_, hm2⟩
    refine ⟨⟨(handleOpen c2 p2 st2 (handleOpen c1 p1 st1 s).2.2).1, cid2, p2⟩, ?_, ?_⟩
    · rw [hm2', mapGet_append_right _ _ _ hfresh2, mapGet_cons]
      simp
    · rw [hdel, mapGet_delete_ne _ _ _ (fun e => hne e.symm),
        hm2', mapGet_append_right _ _ _ hfresh2, mapGet_cons]
      simp
  · intro ids t i m him hnotin
    rcases List.eq_nil_or_concat ids with rfl | ⟨l, a, rfl⟩
    · rw [handleClose_nil]
      exact him
    · rw [List.concat_eq_append] at hnotin ⊢
      rw [handleClose_concat]
      show (i, m) ∈ (closeModal a t).modals
      rw [modals_closeModal]
      refine mem_mapDelete _ _ _ him ?_
      intro e
      have e2 : i = a := e
      apply hnotin
      rw [e2]
      exact List.mem_append_right l (List.mem_singleton.mpr rfl)

theorem stack_ownership_isolation_witness :
    initialState.WF ∧
    mapGet (handleClose (handleOpen 1 none [] initialState).2.1
        (handleOpen 2 none [] (handleOpen 1 none [] initialState).2.2).2.2).2.modals
        (handleOpen 1 none [] initialState).1 = none :=
  ⟨by decide, (stack_ownership_isolation 1 2 none none [] [] initialState (by decide)).1⟩

/-- C3. Registration idempotence and registry consistency: registering the
same definition twice returns the same id and leaves the state untouched
the second time; the reverse map resolves the returned id back to the
definition; and registration preserves the registry invariant (the two
maps invert each other, ids never reused). Registration is a total
function — it has no error conditions. -/
theorem registration_idempotent (c : Nat) (s : GlobalState) (hReg : RegWF s) :
    (registerComponent c (registerComponent c s).2).1 = (registerComponent c s).1
    ∧ (registerComponent c (registerComponent c s).2).2 = (registerComponent c s).2
    ∧ mapGet (registerComponent c s).2.regReverse (registerComponent c s).1 = some c
    ∧ RegWF (registerComponent c s).2 := by
  cases h : mapGet s.regForward c with
  | some cid =>
    have hr := registerComponent_of_found c cid s h
    have hr2 : registerComponent c (registerComponent c s).2 = (cid, s) := by
      rw [hr]
      exact registerComponent_of_found c cid s h
    refine ⟨?_, ?_, ?_, ?_⟩
    · rw [hr2, hr]
    · rw [hr2, hr]
    · rw [hr]
      exact hReg.1 (c, cid) (mapGet_some_mem _ _ _ h)
    · rw [hr]
      exact hReg
  | none =>
    have hr := registerComponent_of_absent c s h
    have hfwd : mapSet s.regForward c s.nextNano = s.regForward ++ [(c, s.nextNano)] :=
      mapSet_of_absent _ _ _ h
    have hrevAbsent : mapGet s.regReverse s.nextNano = none := by
      cases hg : mapGet s.regReverse s.nextNano with
      | none => rfl
      | some c2 =>
        have hmem := mapGet_some_mem _ _ _ hg
        have hf := hReg.2.1 (s.nextNano, c2) hmem
        have hmem2 := mapGet_some_mem _ _ _ hf
        have := hReg.2.2 (c2, s.nextNano) hmem2
        exact absurd this (Nat.lt_irrefl _)
    have hrev : mapSet s.regReverse s.nextNano c = s.regReverse ++ [(s.nextNano, c)] :=
      mapSet_of_absent _ _ _ hrevAbsent
    have hlook2 : mapGet (registerComponent c s).2.regForward c = some s.nextNano := by
      rw [hr]
      show mapGet (mapSet s.regForward c s.nextNano) c = some s.nextNano
      rw [hfwd, mapGet_append_right _ _ _ h, mapGet_cons]
      simp
    have hr2 : registerComponent c (registerComponent c s).2
        = (s.nextNano, (registerComponent c s).2) :=
      registerComponent_of_found c s.nextNano (registerComponent c s).2 hlook2
    have hrevLook : mapGet (registerComponent c s).2.regReverse s.nextNano = some c := by
      rw [hr]
      show mapGet (mapSet s.regReverse s.nextNano c) s.nextNano = some c
      rw [hrev, mapGet_append_right _ _ _ hrevAbsent, mapGet_cons]
      simp
    refine ⟨?_, ?_, ?_, ?_⟩
    · rw [hr2, hr]
    · rw [hr2]
    · have h1 : (registerComponent c s).1 = s.nextNano := by rw [hr]
      rw [h1]
      exact hrevLook
    · refine ⟨?_, ?_, ?_⟩
      · intro p hp
        rw [hr] at hp ⊢
        simp only at hp ⊢
        rw [hfwd] at hp
        rcases List.mem_append.mp hp with hold | hnew
        · have := hReg.1 p hold
          rw [hrev]
          exact mapGet_append_left _ _ _ _ this
        · rcases List.mem_singleton.mp hnew with rfl
          show mapGet (mapSet s.regReverse s.nextNano c) s.nextNano = some c
          rw [hrev, mapGet_append_right _ _ _ hrevAbsent, mapGet_cons]
          simp
      · intro p hp
        rw [hr] at hp ⊢
        simp only at hp ⊢
        rw [hrev] at hp
        rcases List.mem_append.mp hp with hold | hnew
        · have := hReg.2.1 p hold
          rw [hfwd]
          exact mapGet_append_left _ _ _ _ this
        · rcases List.mem_singleton.mp hnew with rfl
          show mapGet (mapSet s.regForward c s.nextNano) c = some s.nextNano
          rw [hfwd, mapGet_append_right _ _ _ h, mapGet_cons]
          simp
      · intro p hp
        rw [hr] at hp ⊢
        simp only at hp ⊢
        rw [hfwd] at hp
        rcases List.mem_append.mp hp with hold | hnew
        · exact Nat.lt_succ_of_lt (hReg.2.2 p hold)
        · rcases List.mem_singleton.mp hnew with rfl
          exact Nat.lt_succ_self _

theorem registration_idempotent_witness :
    RegWF initialState ∧
    (registerComponent 9 (registerComponent 9 initialState).2).1
        = (registerComponent 9 initialState).1 ∧
    mapGet (registerComponent 9 initialState).2.regReverse
        (registerComponent 9 initialState).1 = some 9 :=
  ⟨by decide, (registration_idempotent 9 initialState (by decide)).1,
    (registration_idempotent 9 initialState (by decide)).2.2.1⟩

/-- C5. Snapshot immutability: a Map object referenced before a mutation
holds the same contents afterwards — `openModal` and `closeModal` only
allocate a fresh Map, they never write to an existing one — while the
snapshot installed by the mutation reflects exactly the set or delete. -/
theorem snapshot_immutability (id i c : Nat) (props : Option Props)
    (s : GlobalState) (a : Nat) (v : List (Nat × ModalState))
    (hWF : s.heap.WF) (ha : s.heap.get a = some v) :
    (openModal id c props s).heap.get a = some v
    ∧ (closeModal i s).heap.get a = some v
    ∧ (openModal id c props s).modals
        = mapSet s.modals id ⟨id, (registerComponent c s).1, props⟩
    ∧ (closeModal i s).modals = mapDelete s.modals i := by
  have hheap : (openModal id c props s).heap
      = ((registerComponent c s).2.heap.alloc
          (mapSet (registerComponent c s).2.modals id
            ⟨id, (registerComponent c s).1, props⟩)).2 := rfl
  refine ⟨?_, ?_, modals_openModal id c props s, modals_closeModal i s⟩
  · rw [hheap]
    refine Heap.get_alloc_old _ _ _ _ ?_ ?_
    · rw [registerComponent_heap]
      exact hWF
    · rw [registerComponent_heap]
      exact ha
  · show ((s.heap.alloc (mapDelete s.modals i)).2).get a = some v
    exact Heap.get_alloc_old _ _ _ _ hWF ha

theorem snapshot_immutability_witness :
    initialState.heap.WF ∧ initialState.heap.get 0 = some [] ∧
    (openModal 5 1 none initialState).heap.get 0 = some [] ∧
    (closeModal 5 initialState).heap.get 0 = some [] :=
  ⟨by decide, by decide,
    (snapshot_immutability 5 5 1 none initialState 0 [] (by decide) (by decide)).1,
    (snapshot_immutability 5 5 1 none initialState 0 [] (by decide) (by decide)).2.1⟩

/-- C6. The injected per-instance `close` is id-addressed: the renderer
wires every resolved instance to `closeModal(modal.id)` — its close target
is the instance's own id — and invoking it removes exactly the entry
bearing that id, leaving every differently-keyed entry in place,
independent of any handle stack or of opening order. -/
theorem injected_close_id_addressed (s : GlobalState) (k : Nat) (m : ModalState)
    (hm : (k, m) ∈ s.modals) :
    (∀ r : Rendered, renderModal s m = some r → r.closeTarget = m.id)
    ∧ mapGet (closeModal m.id s).modals m.id = none
    ∧ ∀ (j : Nat) (m2 : ModalState), (j, m2) ∈ s.modals → j ≠ m.id →
        (j, m2) ∈ (closeModal m.id s).modals := by
  refine ⟨?_, ?_, ?_⟩
  · intro r hr
    unfold renderModal at hr
    cases hres : mapGet s.regReverse m.componentId with
    | none =>
      rw [hres] at hr
      simp at hr
    | some comp =>
      rw [hres] at hr
      simp only [Option.some.injEq] at hr
      rw [← hr]
  · rw [modals_closeModal]
    exact mapGet_delete_self _ _
  · intro j m2 hj hne
    rw [modals_closeModal]
    exact mem_mapDelete _ _ _ hj hne

theorem injected_close_id_addressed_witness :
    ((11, ⟨11, 1, some [("t", "x")]⟩) : Nat × ModalState) ∈ renderDemo.modals ∧
    mapGet (closeModal 11 renderDemo).modals 11 = none :=
  ⟨by decide,
    (injected_close_id_addressed renderDemo 11 ⟨11, 1, some [("t", "x")]⟩ (by decide)).2.1⟩

/-- C7. Unknown-component skip: the render pass yields one output slot per
store entry in snapshot order; a slot whose component id does not resolve
renders nothing and contributes a warning naming the missing id (the store
itself is untouched — rendering is a pure read), while every slot whose
component id resolves renders the component with the injected id, the
id-addressed close target, and the user props. -/
theorem unknown_component_skipped (s : GlobalState) :
    (renderModals s).length = s.modals.length
    ∧ ∀ (k : Nat) (p : Nat × ModalState), s.modals[k]? = some p →
        (mapGet s.regReverse p.2.componentId = none →
          (renderModals s)[k]? = some none
          ∧ ("Modal component with ID " ++ toString p.2.componentId ++ " not found")
              ∈ renderWarnings s)
        ∧ ∀ comp : Nat, mapGet s.regReverse p.2.componentId = some comp →
            (renderModals s)[k]?
              = some (some ⟨p.2.id, comp, p.2.id, p.2.id, p.2.props.getD []⟩) := by
  constructor
  · unfold renderModals
    exact List.length_map _ _
  · intro k p hp
    have hmem : p ∈ s.modals := List.getElem?_mem hp
    have hr : (renderModals s)[k]?
        = Option.map (fun q => renderModal s q.2) s.modals[k]? := by
      unfold renderModals
      exact List.getElem?_map _ _ _
    constructor
    · intro hnone
      have hRM : renderModal s p.2 = none := by
        unfold renderModal
        rw [hnone]
      constructor
      · rw [hr, hp]
        simp [hRM]
      · unfold renderWarnings
        refine List.mem_filterMap.mpr ⟨p, hmem, ?_⟩
        rw [hnone]
    · intro comp hcomp
      have hRM : renderModal s p.2
          = some ⟨p.2.id, comp, p.2.id, p.2.id, p.2.props.getD []⟩ := by
        unfold renderModal
        rw [hcomp]
      rw [hr, hp]
      simp [hRM]

theorem unknown_component_skipped_witness :
    (renderModals renderDemo).length = renderDemo.modals.length ∧
    (renderModals renderDemo)[0]? = some none ∧
    ("Modal component with ID " ++ toString (99 : Nat) ++ " not found")
      ∈ renderWarnings renderDemo ∧
    (renderModals renderDemo)[1]? = some (some ⟨11, 5, 11, 11, [("t", "x")]⟩) :=
  ⟨(unknown_component_skipped renderDemo).1,
   (((unknown_component_skipped renderDemo).2 0 (10, ⟨10, 99, none⟩)
      (by decide)).1 (by decide)).1,
   (((unknown_component_skipped renderDemo).2 0 (10, ⟨10, 99, none⟩)
      (by decide)).1 (by decide)).2,
   ((unknown_component_skipped renderDemo).2 1 (11, ⟨11, 1, some [("t", "x")]⟩)
      (by decide)).2 5 (by decide)⟩

/-- C10. Every `closeModal` call installs a freshly allocated Map as the
new snapshot, even when the id is absent: the new reference is the fresh
heap address (distinct from the old reference), the old Map keeps its
contents, the new contents are the old with the id deleted (identical when
the id was absent), and the state swap — hence subscriber notification —
happens on every call. -/
theorem closeModal_fresh_snapshot (id : Nat) (s : GlobalState)
    (w : List (Nat × ModalState)) (hWF : s.heap.WF)
    (hA : s.heap.get s.modalsAddr = some w) :
    (closeModal id s).modalsAddr = s.heap.next
    ∧ (closeModal id s).modalsAddr ≠ s.modalsAddr
    ∧ (closeModal id s).heap.get s.modalsAddr = some w
    ∧ (closeModal id s).modals = mapDelete s.modals id
    ∧ (mapGet s.modals id = none → (closeModal id s).modals = s.modals)
    ∧ (closeModal id s).notifyCount = s.notifyCount + 1 := by
  have hlt : s.modalsAddr < s.heap.next := Heap.get_some_lt _ _ _ hWF hA
  refine ⟨rfl, ?_, ?_, modals_closeModal id s, ?_, rfl⟩
  · show s.heap.next ≠ s.modalsAddr
    exact (Nat.ne_of_lt hlt).symm
  · show ((s.heap.alloc (mapDelete s.modals id)).2).get s.modalsAddr = some w
    exact Heap.get_alloc_old _ _ _ _ hWF hA
  · intro hnone
    rw [modals_closeModal]
    exact mapDelete_of_absent _ _ hnone

theorem closeModal_fresh_snapshot_witness :
    initialState.heap.WF ∧
    initialState.heap.get initialState.modalsAddr = some [] ∧
    (closeModal 4 initialState).modalsAddr = initialState.heap.next ∧
    (closeModal 4 initialState).notifyCount = initialState.notifyCount + 1 :=
  ⟨by decide, by decide,
    (closeModal_fresh_snapshot 4 initialState [] (by decide) (by decide)).1,
    (closeModal_fresh_snapshot 4 initialState [] (by decide) (by decide)).2.2.2.2.2⟩

end ModalManager
